import Mathlib

/-!
Verification of the macOS desktop-control adapter
(`src/computers/local/macos_computer.py`).

The adapter is embedded shallowly: every public operation is a pure Lean
function returning the list of native input events it issues (the calls into
pyautogui) together with an optional raised Python error.  Real arithmetic on
the scale factors is modelled in `ℚ`; Python's `int()` truncation toward zero
is `pyInt`.  External collaborators (the OS process table, the `osascript`
subprocess, the physical screen, PIL image operations) are modelled as
explicit inputs or thin structures carrying exactly the data the adapter
reads from them.
-/

/-- Fixed logical canvas width (`SCALE_TARGET_WIDTH = 1366`). -/
def SCALE_TARGET_WIDTH : Nat := 1366

/-- Fixed logical canvas height (`SCALE_TARGET_HEIGHT = 768`). -/
def SCALE_TARGET_HEIGHT : Nat := 768

/-- The physical screen geometry captured once in `__init__` via
`pyautogui.size()`. -/
structure Geometry where
  width : Nat
  height : Nat
deriving DecidableEq, Repr

/-- `self._x_scale_factor = self._width / self.SCALE_TARGET_WIDTH`. -/
def x_scale_factor (g : Geometry) : ℚ := (g.width : ℚ) / (SCALE_TARGET_WIDTH : ℚ)

/-- `self._y_scale_factor = self._height / self.SCALE_TARGET_HEIGHT`. -/
def y_scale_factor (g : Geometry) : ℚ := (g.height : ℚ) / (SCALE_TARGET_HEIGHT : ℚ)

/-- Python `int()` on a real value: truncation toward zero. -/
def pyInt (q : ℚ) : Int := if 0 ≤ q then ⌊q⌋ else -⌊-q⌋

/-- `_scale_coordinates_from_ai`: multiply each axis by its factor and
truncate to an integer. -/
def scale_coordinates_from_ai (g : Geometry) (x y : Int) : Int × Int :=
  (pyInt ((x : ℚ) * x_scale_factor g), pyInt ((y : ℚ) * y_scale_factor g))

/-- Python exceptions the adapter can raise. -/
inductive PyErr where
  | valueError (msg : String)
  | keyError (key : String)
deriving DecidableEq, Repr

/-- Native input events issued to pyautogui. -/
inductive Event where
  | moveTo (x y : Int)
  | click (x y : Int) (button : String)
  | doubleClick (x y : Int)
  | mouseDown
  | mouseUp
  | vscroll (clicks : Int)
  | hscroll (clicks : Int)
  | press (key : String)
  | hotkey (keys : List String)
  | sleepMs (ms : Nat)
deriving DecidableEq, Repr

/-- Result of one adapter call: the native events issued, in order, and the
error raised (if any) after those events. -/
abbrev PyResult := List Event × Option PyErr

/-- The bounds test `0 <= x <= SCALE_TARGET_WIDTH and 0 <= y <=
SCALE_TARGET_HEIGHT` shared by all pointer actions. -/
def inBounds (x y : Int) : Bool :=
  decide (0 ≤ x ∧ x ≤ (SCALE_TARGET_WIDTH : Int) ∧ 0 ≤ y ∧ y ≤ (SCALE_TARGET_HEIGHT : Int))

/-- The out-of-bounds `ValueError` message. -/
def oobMsg (x y : Int) : String :=
  "Coordinates (" ++ toString x ++ ", " ++ toString y ++
    ") are outside scaled bounds 1366x768"

/-- The `button_map` dictionary in `click`. -/
def button_map : List (String × String) :=
  [("left", "left"), ("right", "right"), ("middle", "middle")]

/-- `click(x, y, button)`. -/
def click (g : Geometry) (x y : Int) (button : String) : PyResult :=
  if !(inBounds x y) then ([], some (.valueError (oobMsg x y)))
  else
    let a := scale_coordinates_from_ai g x y
    match button_map.lookup button with
    | none => ([], some (.valueError ("Unknown button: " ++ button)))
    | some b => ([Event.click a.1 a.2 b], none)

/-- `double_click(x, y)`. -/
def double_click (g : Geometry) (x y : Int) : PyResult :=
  if !(inBounds x y) then ([], some (.valueError (oobMsg x y)))
  else
    let a := scale_coordinates_from_ai g x y
    ([Event.doubleClick a.1 a.2], none)

/-- `move(x, y)`. -/
def move (g : Geometry) (x y : Int) : PyResult :=
  if !(inBounds x y) then ([], some (.valueError (oobMsg x y)))
  else
    let a := scale_coordinates_from_ai g x y
    ([Event.moveTo a.1 a.2], none)

/-- The direction dispatch at the end of `scroll`: pick the signed magnitude,
then issue a vertical or horizontal wheel event (or nothing for an unknown
direction string). -/
def scrollEvents (direction : String) (amount : Int) : List Event :=
  let scroll_amount := if direction ∈ (["down", "right"] : List String) then amount else -amount
  if direction ∈ (["up", "down"] : List String) then [Event.vscroll scroll_amount]
  else if direction ∈ (["left", "right"] : List String) then [Event.hscroll scroll_amount]
  else []

/-- `scroll(x, y, direction, amount)` after the keyword-form dispatch: when
both coordinates are supplied they are validated and the pointer is moved
there first. -/
def scroll (g : Geometry) (x y : Option Int) (direction : String) (amount : Int) : PyResult :=
  match x, y with
  | some xv, some yv =>
    if !(inBounds xv yv) then ([], some (.valueError (oobMsg xv yv)))
    else
      let a := scale_coordinates_from_ai g xv yv
      (Event.moveTo a.1 a.2 :: scrollEvents direction amount, none)
  | _, _ => (scrollEvents direction amount, none)

/-- The `key_map` alias dictionary in `keypress`. -/
def key_map : List (String × String) :=
  [("cmd", "command"), ("ctrl", "ctrl"), ("alt", "option"), ("shift", "shift"),
   ("enter", "enter"), ("return", "enter"), ("tab", "tab"), ("space", "space"),
   ("backspace", "backspace"), ("delete", "delete"), ("esc", "escape"),
   ("escape", "escape"), ("up", "up"), ("down", "down"), ("left", "left"),
   ("right", "right"), ("home", "home"), ("end", "end"), ("pageup", "pageup"),
   ("pagedown", "pagedown")]

/-- Python `str.lower()`, modelled character by character (every key name
involved is ASCII). -/
def pyLower (s : String) : String := ⟨s.data.map Char.toLower⟩

/-- `key_map.get(key.lower(), key.lower())`. -/
def mapKey (k : String) : String := (key_map.lookup (pyLower k)).getD (pyLower k)

/-- `keypress(keys)`: empty input returns immediately; one mapped key is a
single press; several are one chorded hotkey. -/
def keypress (keys : List String) : List Event :=
  match keys.map mapKey with
  | [] => []
  | [k] => [Event.press k]
  | ks => [Event.hotkey ks]

/-- One point dictionary of a drag path; either key may be absent. -/
structure PointDict where
  x? : Option Int
  y? : Option Int
deriving DecidableEq, Repr

/-- `point.get('x', 0)`. -/
def PointDict.getX (p : PointDict) : Int := p.x?.getD 0

/-- `point.get('y', 0)`. -/
def PointDict.getY (p : PointDict) : Int := p.y?.getD 0

/-- Reading `point['x']`, `point['y']`: a missing key raises `KeyError`
(`'x'` is read first). -/
def readXY (p : PointDict) : Except PyErr (Int × Int) :=
  match p.x?, p.y? with
  | some x, some y => .ok (x, y)
  | none, _ => .error (.keyError "x")
  | some _, none => .error (.keyError "y")

/-- The up-front validation loop of `drag`: bounds-check every point using
`get`-with-default-0 reads, returning the first error. -/
def validatePath : List PointDict → Option PyErr
  | [] => none
  | p :: ps =>
    if !(inBounds p.getX p.getY) then some (.valueError (oobMsg p.getX p.getY))
    else validatePath ps

/-- The `try` body of `drag`: move through the remaining points with a
0.05 s pacing sleep after each move.  `mv` is the oracle telling whether the
native `moveTo` at given physical coordinates raises. -/
def dragLoop (g : Geometry) (mv : Int → Int → Option PyErr) : List PointDict → PyResult
  | [] => ([], none)
  | p :: ps =>
    match readXY p with
    | .error e => ([], some e)
    | .ok (x, y) =>
      let a := scale_coordinates_from_ai g x y
      match mv a.1 a.2 with
      | some e => ([], some e)
      | none =>
        let r := dragLoop g mv ps
        (Event.moveTo a.1 a.2 :: Event.sleepMs 50 :: r.1, r.2)

/-- `drag(path)`: length check, validation of every point, move to the scaled
first point, press, drag through the rest inside `try`, release in
`finally`. -/
def drag (g : Geometry) (mv : Int → Int → Option PyErr) (path : List PointDict) : PyResult :=
  if path.length < 2 then ([], some (.valueError "Path must contain at least 2 points"))
  else match validatePath path with
  | some e => ([], some e)
  | none =>
    match path with
    | [] => ([], none)
    | start :: rest =>
      match readXY start with
      | .error e => ([], some e)
      | .ok (x, y) =>
        let a := scale_coordinates_from_ai g x y
        match mv a.1 a.2 with
        | some e => ([], some e)
        | none =>
          let r := dragLoop g mv rest
          (Event.moveTo a.1 a.2 :: Event.mouseDown :: (r.1 ++ [Event.mouseUp]), r.2)

/-- An image, carrying the data the adapter reads: its dimensions. -/
structure Img where
  width : Nat
  height : Nat
deriving DecidableEq, Repr

/-- PIL `Image.resize`: yields an image of exactly the requested size. -/
def Img.resize (_img : Img) (w h : Nat) : Img := ⟨w, h⟩

/-- `pyautogui.screenshot()`: captures the full physical screen. -/
def pyScreenshot (g : Geometry) : Img := ⟨g.width, g.height⟩

/-- The string returned by `screenshot`, decomposed: the data-URI scheme
text, the encoding chosen in `save`, and the image the base64 payload
carries. -/
structure ScreenshotResult where
  uriHeader : String
  format : String
  payload : Img
deriving DecidableEq, Repr

/-- `screenshot()`: capture, resize to the logical canvas with LANCZOS,
PNG-encode, base64, and wrap in a data URI. -/
def screenshot (g : Geometry) : ScreenshotResult :=
  let s := pyScreenshot g
  let scaled := s.resize SCALE_TARGET_WIDTH SCALE_TARGET_HEIGHT
  { uriHeader := "data:image/png;base64,", format := "PNG", payload := scaled }

/-- One entry of the `psutil.process_iter(['name'])` snapshot: either the
process yields its (possibly `None`) name, or it vanishes / denies access
while being read. -/
inductive ProcInfo where
  | ok (name : Option String)
  | gone
deriving DecidableEq, Repr

/-- Python `name.startswith('.')`: the first character is a dot. -/
def startsWithDot (s : String) : Bool := s.data.head? == some '.'

/-- Lexicographic code-point comparison of character lists, the order Python
uses to compare strings. -/
def listCharLe : List Char → List Char → Bool
  | [], _ => true
  | _ :: _, [] => false
  | a :: as, b :: bs => if a < b then true else if b < a then false else listCharLe as bs

/-- Python string comparison `a <= b`. -/
def pyStrLe (a b : String) : Bool := listCharLe a.data b.data

/-- A process entry that stays readable for the whole enumeration. -/
def ProcInfo.live : ProcInfo → Bool
  | .gone => false
  | .ok _ => true

/-- The loop body of `get_running_applications`: vanished or inaccessible
processes are skipped by the `except` clause, and a name is kept only when it
is truthy and not dot-prefixed. -/
def procName : ProcInfo → Option String
  | .ok (some n) => if n = "" then none else if startsWithDot n then none else some n
  | .ok none => none
  | .gone => none

/-- `get_running_applications()`: collect the kept names, then
`sorted(list(set(apps)))`. -/
def get_running_applications (procs : List ProcInfo) : List String :=
  List.insertionSort (fun a b => pyStrLe a b = true) (procs.filterMap procName).dedup

/-- Outcome of the `subprocess.run(['osascript', ...], timeout=5)` call:
either it completes with an exit code and captured stdout, or it raises
(timeout expiry or any other exception). -/
inductive ScriptOutcome where
  | completes (returncode : Int) (stdout : String)
  | fails
deriving DecidableEq, Repr

/-- `get_active_window_title()`: stripped stdout on exit code 0, the empty
string on a nonzero exit code or any exception. -/
def get_active_window_title (r : ScriptOutcome) : String :=
  match r with
  | .completes rc out => if rc == 0 then out.trim else ""
  | .fails => ""

/-- `focus_application(name)`: true exactly when the script completes with
exit code 0; any exception yields false. -/
def focus_application (r : ScriptOutcome) : Bool :=
  match r with
  | .completes rc _ => rc == 0
  | .fails => false

/-- A call that raises a validation error cleanly: it issues no native event
and reports an error. -/
def raisesCleanly (r : PyResult) : Prop := r.1 = [] ∧ r.2.isSome

/-- A complete path point `{'x': ..., 'y': ...}` with both keys present. -/
def mkPoint (q : Int × Int) : PointDict := ⟨some q.1, some q.2⟩

/-- The scaled (physical-space) image of a logical point. -/
def scaleP (g : Geometry) (q : Int × Int) : Int × Int :=
  scale_coordinates_from_ai g q.1 q.2

/-- The expected event trace of the drag loop over complete points: a scaled
move followed by the 0.05 s pacing sleep, per point. -/
def dragTrace (g : Geometry) : List (Int × Int) → List Event
  | [] => []
  | q :: qs =>
    Event.moveTo (scaleP g q).1 (scaleP g q).2 :: Event.sleepMs 50 :: dragTrace g qs

/-! ## Helper lemmas -/

lemma validatePath_eq_none_iff (ps : List PointDict) :
    validatePath ps = none ↔ ∀ p ∈ ps, inBounds p.getX p.getY = true := by
  induction ps with
  | nil => simp [validatePath]
  | cons p ps ih =>
    rw [List.forall_mem_cons]
    by_cases h : inBounds p.getX p.getY
    · simp [validatePath, h, ih]
    · have hf : inBounds p.getX p.getY = false := by simpa using h
      simp [validatePath, hf]

lemma validatePath_oob_of_mem (ps : List PointDict) (p : PointDict)
    (hp : p ∈ ps) (h : inBounds p.getX p.getY = false) :
    ∃ e, validatePath ps = some e := by
  induction ps with
  | nil => cases hp
  | cons q qs ih =>
    by_cases hq : inBounds q.getX q.getY
    · rcases List.mem_cons.mp hp with rfl | hp2
      · rw [h] at hq; cases hq
      · simpa [validatePath, hq] using ih hp2
    · have hqf : inBounds q.getX q.getY = false := by simpa using hq
      exact ⟨PyErr.valueError (oobMsg q.getX q.getY), by simp [validatePath, hqf]⟩

lemma scrollEvents_cases (d : String) (a : Int) :
    scrollEvents d a = [] ∨ (∃ n, scrollEvents d a = [Event.vscroll n]) ∨
      (∃ n, scrollEvents d a = [Event.hscroll n]) := by
  by_cases h1 : d ∈ (["up", "down"] : List String)
  · exact Or.inr (Or.inl ⟨(if d ∈ (["down", "right"] : List String) then a else -a),
      by simp [scrollEvents, h1]⟩)
  · by_cases h2 : d ∈ (["left", "right"] : List String)
    · exact Or.inr (Or.inr ⟨(if d ∈ (["down", "right"] : List String) then a else -a),
        by simp [scrollEvents, h1, h2]⟩)
    · exact Or.inl (by simp [scrollEvents, h1, h2])

lemma listCharLe_cons (a b : Char) (as bs : List Char) :
    listCharLe (a :: as) (b :: bs) = true ↔ a < b ∨ (a = b ∧ listCharLe as bs = true) := by
  by_cases h1 : a < b
  · simp [listCharLe, h1]
  · by_cases h2 : b < a
    · have hne : a ≠ b := fun h => absurd (h ▸ h2) (lt_irrefl _)
      simp [listCharLe, h1, h2, hne]
    · have hab : a = b := le_antisymm (not_lt.mp h2) (not_lt.mp h1)
      simp [listCharLe, h1, h2, hab]

lemma listCharLe_total : ∀ as bs : List Char, listCharLe as bs = true ∨ listCharLe bs as = true
  | [], _ => Or.inl rfl
  | _ :: _, [] => Or.inr rfl
  | a :: as, b :: bs => by
    rcases lt_trichotomy a b with h | h | h
    · exact Or.inl ((listCharLe_cons _ _ _ _).mpr (Or.inl h))
    · rcases listCharLe_total as bs with ih | ih
      · exact Or.inl ((listCharLe_cons _ _ _ _).mpr (Or.inr ⟨h, ih⟩))
      · exact Or.inr ((listCharLe_cons _ _ _ _).mpr (Or.inr ⟨h.symm, ih⟩))
    · exact Or.inr ((listCharLe_cons _ _ _ _).mpr (Or.inl h))

lemma listCharLe_trans : ∀ as bs cs : List Char,
    listCharLe as bs = true → listCharLe bs cs = true → listCharLe as cs = true := by
  intro as
  induction as with
  | nil => intro bs cs _ _; rfl
  | cons a as ih =>
    intro bs cs h1 h2
    cases bs with
    | nil => simp [listCharLe] at h1
    | cons b bs =>
      cases cs with
      | nil => simp [listCharLe] at h2
      | cons c cs =>
        rcases (listCharLe_cons _ _ _ _).mp h1 with hab | ⟨hab, h1tl⟩ <;>
          rcases (listCharLe_cons _ _ _ _).mp h2 with hbc | ⟨hbc, h2tl⟩
        · exact (listCharLe_cons _ _ _ _).mpr (Or.inl (lt_trans hab hbc))
        · exact (listCharLe_cons _ _ _ _).mpr (Or.inl (by rw [← hbc]; exact hab))
        · exact (listCharLe_cons _ _ _ _).mpr (Or.inl (by rw [hab]; exact hbc))
        · exact (listCharLe_cons _ _ _ _).mpr (Or.inr ⟨hab.trans hbc, ih bs cs h1tl h2tl⟩)

lemma pyStrLe_total (a b : String) : pyStrLe a b = true ∨ pyStrLe b a = true :=
  listCharLe_total a.data b.data

lemma pyStrLe_trans {a b c : String} (h1 : pyStrLe a b = true) (h2 : pyStrLe b c = true) :
    pyStrLe a c = true :=
  listCharLe_trans a.data b.data c.data h1 h2

instance : IsTotal String (fun a b => pyStrLe a b = true) := ⟨pyStrLe_total⟩

instance : IsTrans String (fun a b => pyStrLe a b = true) :=
  ⟨fun _ _ _ h1 h2 => pyStrLe_trans h1 h2⟩

lemma filterMap_procName_filter (procs : List ProcInfo) :
    (procs.filter ProcInfo.live).filterMap procName = procs.filterMap procName := by
  induction procs with
  | nil => rfl
  | cons p ps ih =>
    cases p with
    | gone => simpa [List.filter_cons, ProcInfo.live, procName] using ih
    | ok o => simp [List.filter_cons, ProcInfo.live, List.filterMap_cons, ih]

lemma pyInt_intCast (x : Int) : pyInt ((x : ℚ)) = x := by
  unfold pyInt
  by_cases h : (0 : ℚ) ≤ (x : ℚ)
  · rw [if_pos h, Int.floor_intCast]
  · rw [if_neg h, ← Int.cast_neg, Int.floor_intCast, neg_neg]

lemma scale_id (x y : Int) : scale_coordinates_from_ai ⟨1366, 768⟩ x y = (x, y) := by
  unfold scale_coordinates_from_ai x_scale_factor y_scale_factor
  norm_num [SCALE_TARGET_WIDTH, SCALE_TARGET_HEIGHT, pyInt_intCast]

lemma drag_of_valid (g : Geometry) (mv : Int → Int → Option PyErr)
    (p0 : PointDict) (rest : List PointDict)
    (hne : rest ≠ []) (hval : validatePath (p0 :: rest) = none) :
    drag g mv (p0 :: rest)
      = match readXY p0 with
        | .error e => ([], some e)
        | .ok (x, y) =>
          match mv (scale_coordinates_from_ai g x y).1 (scale_coordinates_from_ai g x y).2 with
          | some e => ([], some e)
          | none =>
            (Event.moveTo (scale_coordinates_from_ai g x y).1
                (scale_coordinates_from_ai g x y).2 ::
              Event.mouseDown :: ((dragLoop g mv rest).1 ++ [Event.mouseUp]),
             (dragLoop g mv rest).2) := by
  have hlen : ¬ ((p0 :: rest).length < 2) := by
    cases rest with
    | nil => exact absurd rfl hne
    | cons q qs => simp
  unfold drag
  rw [if_neg hlen, hval]

lemma dragLoop_noFail (g : Geometry) (qs : List (Int × Int)) :
    dragLoop g (fun _ _ => none) (qs.map mkPoint) = (dragTrace g qs, none) := by
  induction qs with
  | nil => rfl
  | cons q qs ih =>
    simp [dragLoop, mkPoint, readXY, dragTrace, scaleP, ih]

lemma dragLoop_noFail_missing (g : Geometry) (ps : List PointDict)
    (h : ∃ p ∈ ps, p.x? = none ∨ p.y? = none) :
    ∃ k, (dragLoop g (fun _ _ => none) ps).2 = some (PyErr.keyError k) := by
  induction ps with
  | nil => rcases h with ⟨p, hp, _⟩; cases hp
  | cons p ps ih =>
    rcases h with ⟨q, hq, hmiss⟩
    cases hx : p.x? with
    | none => exact ⟨"x", by simp [dragLoop, readXY, hx]⟩
    | some xv =>
      cases hy : p.y? with
      | none => exact ⟨"y", by simp [dragLoop, readXY, hx, hy]⟩
      | some yv =>
        have hq2 : q ∈ ps := by
          rcases List.mem_cons.mp hq with rfl | hq2
          · rcases hmiss with h1 | h1
            · rw [hx] at h1; cases h1
            · rw [hy] at h1; cases h1
          · exact hq2
        rcases ih ⟨q, hq2, hmiss⟩ with ⟨k, hk⟩
        exact ⟨k, by simp [dragLoop, readXY, hx, hy, hk]⟩

/-! ## Claims -/

/-- Claim C4: `keypress([])` issues no events and returns normally; a single
key is lower-cased, mapped through the fixed alias table (cmd→command,
alt→option, esc→escape, return→enter) and issued as one key press; two or
more keys are issued as one chorded combination of the mapped keys. -/
theorem claim_C4 :
    keypress [] = [] ∧
    (∀ k : String, keypress [k] = [Event.press (mapKey k)]) ∧
    (∀ k : String, mapKey k = (key_map.lookup (pyLower k)).getD (pyLower k)) ∧
    mapKey "cmd" = "command" ∧ mapKey "alt" = "option" ∧
    mapKey "esc" = "escape" ∧ mapKey "return" = "enter" ∧ mapKey "A" = "a" ∧
    (∀ (k1 k2 : String) (ks : List String),
      keypress (k1 :: k2 :: ks) = [Event.hotkey ((k1 :: k2 :: ks).map mapKey)]) :=
  ⟨rfl, fun _ => rfl, fun _ => rfl, by decide, by decide, by decide, by decide,
   by decide, fun _ _ _ => rfl⟩

/-- Claim C5 counterexample: `scroll(direction="down", amount=0)` issues a
vertical wheel event of zero magnitude, refuting that a zero delta on an
axis issues no scroll event on that axis. -/
theorem claim_C5_counterexample :
    scroll ⟨2560, 1440⟩ none none "down" 0 = ([Event.vscroll 0], none) := rfl

/-- Claim C5 (amended): every scroll call issues at most one wheel event, on
the single axis selected by the direction string; the four known directions
map to signed magnitudes (down/right positive, up/left negative); a zero
amount still issues a zero-magnitude event on the selected axis. -/
theorem claim_C5 (g : Geometry) (xv yv a : Int) (d : String) :
    (scrollEvents d a = [] ∨ (∃ n, scrollEvents d a = [Event.vscroll n]) ∨
      (∃ n, scrollEvents d a = [Event.hscroll n])) ∧
    scrollEvents "down" a = [Event.vscroll a] ∧
    scrollEvents "up" a = [Event.vscroll (-a)] ∧
    scrollEvents "right" a = [Event.hscroll a] ∧
    scrollEvents "left" a = [Event.hscroll (-a)] ∧
    scroll g none none d a = (scrollEvents d a, none) ∧
    (inBounds xv yv = true →
      scroll g (some xv) (some yv) d a
        = (Event.moveTo (scale_coordinates_from_ai g xv yv).1
            (scale_coordinates_from_ai g xv yv).2 :: scrollEvents d a, none)) := by
  refine ⟨scrollEvents_cases d a, by simp [scrollEvents], by simp [scrollEvents],
    by simp [scrollEvents], by simp [scrollEvents], rfl, ?_⟩
  intro h
  simp [scroll, h]

/-- Witness for claim C5 at a concrete in-bounds call. -/
theorem claim_C5_witness :
    scroll ⟨1366, 768⟩ (some 3) (some 4) "up" 2
      = (Event.moveTo (scale_coordinates_from_ai ⟨1366, 768⟩ 3 4).1
          (scale_coordinates_from_ai ⟨1366, 768⟩ 3 4).2 :: scrollEvents "up" 2, none) :=
  (claim_C5 ⟨1366, 768⟩ 3 4 2 "up").2.2.2.2.2.2 (by decide)

/-- Claim C6: the image carried by the string `screenshot` returns always has
the fixed logical canvas dimensions 1366x768 whatever the physical
resolution, is PNG-encoded, and is wrapped as a data-URI base64 string. -/
theorem claim_C6 (g : Geometry) :
    (screenshot g).payload.width = SCALE_TARGET_WIDTH ∧
    (screenshot g).payload.height = SCALE_TARGET_HEIGHT ∧
    (screenshot g).format = "PNG" ∧
    (screenshot g).uriHeader = "data:image/png;base64," :=
  ⟨rfl, rfl, rfl, rfl⟩

/-- Claim C8: `get_active_window_title` and `focus_application` are total on
every script outcome (no exception propagates); on any failure — raised
exception/timeout or nonzero exit code — they return the empty string and
false respectively, and on success (exit code 0) `focus_application` returns
true. -/
theorem claim_C8 (rc : Int) (out : String) :
    get_active_window_title ScriptOutcome.fails = "" ∧
    focus_application ScriptOutcome.fails = false ∧
    (rc ≠ 0 → get_active_window_title (ScriptOutcome.completes rc out) = "") ∧
    (rc ≠ 0 → focus_application (ScriptOutcome.completes rc out) = false) ∧
    focus_application (ScriptOutcome.completes 0 out) = true := by
  refine ⟨rfl, rfl, ?_, ?_, by simp [focus_application]⟩
  · intro h; simp [get_active_window_title, h]
  · intro h; simp [focus_application, h]

/-- Witness for claim C8 at concrete script outcomes. -/
theorem claim_C8_witness :
    get_active_window_title (ScriptOutcome.completes 1 "Finder") = "" ∧
    focus_application (ScriptOutcome.completes 1 "Finder") = false ∧
    focus_application (ScriptOutcome.completes 0 "Finder") = true :=
  ⟨(claim_C8 1 "Finder").2.2.1 (by decide), (claim_C8 1 "Finder").2.2.2.1 (by decide),
   (claim_C8 1 "Finder").2.2.2.2⟩

/-- Claim C10 counterexample: a scroll call whose direction is unknown but
whose supplied coordinates are out of bounds raises a `ValueError`, so such
calls are not always error-free. -/
theorem claim_C10_counterexample :
    scroll ⟨2560, 1440⟩ (some 2000) (some 0) "diagonal" 5
      = ([], some (PyErr.valueError (oobMsg 2000 0))) := rfl

/-- Claim C10 (amended): a scroll call with an unknown direction string and
no coordinates — or in-bounds coordinates — issues no wheel event on either
axis and raises no error; only the optional pointer move is issued when both
coordinates are supplied. -/
theorem claim_C10 (g : Geometry) (xv yv a : Int) (d : String)
    (hd : d ∉ (["up", "down", "left", "right"] : List String)) :
    scrollEvents d a = [] ∧
    scroll g none none d a = ([], none) ∧
    (inBounds xv yv = true →
      scroll g (some xv) (some yv) d a
        = ([Event.moveTo (scale_coordinates_from_ai g xv yv).1
             (scale_coordinates_from_ai g xv yv).2], none)) := by
  simp only [List.mem_cons, List.not_mem_nil, or_false, not_or] at hd
  have hse : scrollEvents d a = [] := by
    simp [scrollEvents, hd.1, hd.2.1, hd.2.2.1, hd.2.2.2]
  refine ⟨hse, by simp [scroll, hse], ?_⟩
  intro h
  simp [scroll, h, hse]

/-- Witness for claim C10 at a concrete unknown direction. -/
theorem claim_C10_witness :
    scrollEvents "diag" 5 = [] ∧ scroll ⟨1366, 768⟩ none none "diag" 5 = ([], none) :=
  ⟨(claim_C10 ⟨1366, 768⟩ 0 0 5 "diag" (by decide)).1,
   (claim_C10 ⟨1366, 768⟩ 0 0 5 "diag" (by decide)).2.1⟩

/-- Claim C1: for click, move, double_click, scroll-with-coordinates and
drag, an out-of-bounds coordinate, an unknown button name (valid set: left,
right, middle), or a drag path with fewer than two points raises a
validation error synchronously, with no native input event issued before or
as part of the error. -/
theorem claim_C1 (g : Geometry) :
    (∀ x y b, inBounds x y = false → raisesCleanly (click g x y b)) ∧
    (∀ x y b, b ∉ (["left", "right", "middle"] : List String) →
      raisesCleanly (click g x y b)) ∧
    (∀ x y, inBounds x y = false → raisesCleanly (double_click g x y)) ∧
    (∀ x y, inBounds x y = false → raisesCleanly (move g x y)) ∧
    (∀ x y d a, inBounds x y = false → raisesCleanly (scroll g (some x) (some y) d a)) ∧
    (∀ mv path, path.length < 2 → raisesCleanly (drag g mv path)) ∧
    (∀ mv path p, p ∈ path → inBounds p.getX p.getY = false →
      raisesCleanly (drag g mv path)) := by
  refine ⟨?_, ?_, ?_, ?_, ?_, ?_, ?_⟩
  · intro x y b h; simp [click, h, raisesCleanly]
  · intro x y b hb
    by_cases h : inBounds x y
    · simp only [List.mem_cons, List.not_mem_nil, or_false, not_or] at hb
      have hb1 : (b == "left") = false := beq_eq_false_iff_ne.mpr hb.1
      have hb2 : (b == "right") = false := beq_eq_false_iff_ne.mpr hb.2.1
      have hb3 : (b == "middle") = false := beq_eq_false_iff_ne.mpr hb.2.2
      have hlk : button_map.lookup b = none := by
        simp [button_map, List.lookup, hb1, hb2, hb3]
      simp [click, h, hlk, raisesCleanly]
    · have hf : inBounds x y = false := by simpa using h
      simp [click, hf, raisesCleanly]
  · intro x y h; simp [double_click, h, raisesCleanly]
  · intro x y h; simp [move, h, raisesCleanly]
  · intro x y d a h; simp [scroll, h, raisesCleanly]
  · intro mv path h; simp [drag, h, raisesCleanly]
  · intro mv path p hp hb
    by_cases hlen : path.length < 2
    · simp [drag, hlen, raisesCleanly]
    · rcases validatePath_oob_of_mem path p hp hb with ⟨e, he⟩
      simp [drag, hlen, he, raisesCleanly]

/-- Witness for claim C1 at concrete invalid calls. -/
theorem claim_C1_witness :
    raisesCleanly (click ⟨2560, 1440⟩ 1367 10 "left") ∧
    raisesCleanly (click ⟨2560, 1440⟩ 10 10 "back") ∧
    raisesCleanly (double_click ⟨2560, 1440⟩ 0 (-5)) ∧
    raisesCleanly (move ⟨2560, 1440⟩ (-1) 0) ∧
    raisesCleanly (scroll ⟨2560, 1440⟩ (some 0) (some 769) "down" 5) ∧
    raisesCleanly (drag ⟨2560, 1440⟩ (fun _ _ => none) [⟨some 0, some 0⟩]) ∧
    raisesCleanly (drag ⟨2560, 1440⟩ (fun _ _ => none)
      [⟨some 0, some 0⟩, ⟨some 1367, some 0⟩]) :=
  ⟨(claim_C1 ⟨2560, 1440⟩).1 1367 10 "left" (by decide),
   (claim_C1 ⟨2560, 1440⟩).2.1 10 10 "back" (by decide),
   (claim_C1 ⟨2560, 1440⟩).2.2.1 0 (-5) (by decide),
   (claim_C1 ⟨2560, 1440⟩).2.2.2.1 (-1) 0 (by decide),
   (claim_C1 ⟨2560, 1440⟩).2.2.2.2.1 0 769 "down" 5 (by decide),
   (claim_C1 ⟨2560, 1440⟩).2.2.2.2.2.1 (fun _ _ => none) [⟨some 0, some 0⟩] (by decide),
   (claim_C1 ⟨2560, 1440⟩).2.2.2.2.2.2 (fun _ _ => none)
     [⟨some 0, some 0⟩, ⟨some 1367, some 0⟩] ⟨some 1367, some 0⟩ (by decide) (by decide)⟩

/-- Claim C3: for a valid drag path of at least two complete in-bounds
points, drag moves to the scaled first point, presses the button down, moves
sequentially through the scaled remaining points with a pacing sleep between
moves, then releases; and the release is the last event issued even when an
intermediate move raises. -/
theorem claim_C3 (g : Geometry) (q0 : Int × Int) (qs : List (Int × Int))
    (hne : qs ≠ [])
    (hin : ∀ q ∈ q0 :: qs, inBounds q.1 q.2 = true) :
    drag g (fun _ _ => none) ((q0 :: qs).map mkPoint)
      = (Event.moveTo (scaleP g q0).1 (scaleP g q0).2 :: Event.mouseDown ::
          (dragTrace g qs ++ [Event.mouseUp]), none) ∧
    (∀ mv : Int → Int → Option PyErr, mv (scaleP g q0).1 (scaleP g q0).2 = none →
      ((drag g mv ((q0 :: qs).map mkPoint)).1).getLast? = some Event.mouseUp) := by
  have hmapne : qs.map mkPoint ≠ [] := by simpa using hne
  have hval : validatePath ((q0 :: qs).map mkPoint) = none := by
    rw [validatePath_eq_none_iff]
    intro p hp
    rcases List.mem_map.mp hp with ⟨q, hq, rfl⟩
    simpa [mkPoint, PointDict.getX, PointDict.getY] using hin q hq
  constructor
  · rw [show (q0 :: qs).map mkPoint = mkPoint q0 :: qs.map mkPoint from rfl] at hval ⊢
    rw [drag_of_valid g _ (mkPoint q0) (qs.map mkPoint) hmapne hval]
    simp only [readXY, mkPoint, dragLoop_noFail, scaleP]
  · intro mv hmv
    rw [show (q0 :: qs).map mkPoint = mkPoint q0 :: qs.map mkPoint from rfl] at hval ⊢
    rw [drag_of_valid g mv (mkPoint q0) (qs.map mkPoint) hmapne hval]
    have : mv (scale_coordinates_from_ai g q0.1 q0.2).1
        (scale_coordinates_from_ai g q0.1 q0.2).2 = none := hmv
    simp only [readXY, mkPoint, this]
    rw [show Event.moveTo (scale_coordinates_from_ai g q0.1 q0.2).1
          (scale_coordinates_from_ai g q0.1 q0.2).2 :: Event.mouseDown ::
          ((dragLoop g mv (qs.map mkPoint)).1 ++ [Event.mouseUp])
        = (Event.moveTo (scale_coordinates_from_ai g q0.1 q0.2).1
            (scale_coordinates_from_ai g q0.1 q0.2).2 :: Event.mouseDown ::
            (dragLoop g mv (qs.map mkPoint)).1) ++ [Event.mouseUp] from by simp]
    exact List.getLast?_concat _

/-- Witness for claim C3 at a concrete two-point path. -/
theorem claim_C3_witness :
    drag ⟨1366, 768⟩ (fun _ _ => none) ([(3, 4), (5, 6)].map mkPoint)
      = (Event.moveTo (scaleP ⟨1366, 768⟩ (3, 4)).1 (scaleP ⟨1366, 768⟩ (3, 4)).2 ::
          Event.mouseDown :: (dragTrace ⟨1366, 768⟩ [(5, 6)] ++ [Event.mouseUp]), none) :=
  (claim_C3 ⟨1366, 768⟩ (3, 4) [(5, 6)] (by decide) (by decide)).1

/-- Claim C9: a drag-path point lacking the 'x' or 'y' key passes the
up-front bounds validation (the missing coordinate reads as 0 there), so
drag raises no out-of-bounds validation error for it; the missing key only
surfaces as a KeyError when the point is actually read. -/
theorem claim_C9 (g : Geometry) (path : List PointDict)
    (hlen : 2 ≤ path.length)
    (hin : ∀ p ∈ path, inBounds p.getX p.getY = true)
    (hmiss : ∃ p ∈ path, p.x? = none ∨ p.y? = none) :
    validatePath path = none ∧
    ∃ k, (drag g (fun _ _ => none) path).2 = some (PyErr.keyError k) := by
  have hval : validatePath path = none := (validatePath_eq_none_iff path).mpr hin
  refine ⟨hval, ?_⟩
  cases path with
  | nil => simp at hlen
  | cons p0 rest =>
    have hne : rest ≠ [] := by
      cases rest with
      | nil => simp at hlen
      | cons _ _ => simp
    rw [drag_of_valid g _ p0 rest hne hval]
    cases hx : p0.x? with
    | none => exact ⟨"x", by simp [readXY, hx]⟩
    | some xv =>
      cases hy : p0.y? with
      | none => exact ⟨"y", by simp [readXY, hx, hy]⟩
      | some yv =>
        have hmiss2 : ∃ p ∈ rest, p.x? = none ∨ p.y? = none := by
          rcases hmiss with ⟨q, hq, hm⟩
          rcases List.mem_cons.mp hq with rfl | hq2
          · rcases hm with h1 | h1
            · rw [hx] at h1; cases h1
            · rw [hy] at h1; cases h1
          · exact ⟨q, hq2, hm⟩
        rcases dragLoop_noFail_missing g rest hmiss2 with ⟨k, hk⟩
        exact ⟨k, by simp [readXY, hx, hy, hk]⟩

/-- Witness for claim C9 at a concrete path whose second point lacks 'x'. -/
theorem claim_C9_witness :
    validatePath [⟨some 3, some 4⟩, ⟨none, some 5⟩] = none ∧
    ∃ k, (drag ⟨1366, 768⟩ (fun _ _ => none)
      [⟨some 3, some 4⟩, ⟨none, some 5⟩]).2 = some (PyErr.keyError k) :=
  claim_C9 ⟨1366, 768⟩ [⟨some 3, some 4⟩, ⟨none, some 5⟩]
    (by decide) (by decide) (by decide)

/-- Claim C7: for every process snapshot, `get_running_applications` returns
a list sorted in Python string order, without duplicates, with no
dot-prefixed name, and the processes that vanished or were inaccessible
during enumeration are skipped without affecting the rest. -/
theorem claim_C7 (procs : List ProcInfo) :
    (get_running_applications procs).Sorted (fun a b => pyStrLe a b = true) ∧
    (get_running_applications procs).Nodup ∧
    (∀ n ∈ get_running_applications procs, startsWithDot n = false) ∧
    get_running_applications procs = get_running_applications (procs.filter ProcInfo.live) := by
  refine ⟨List.sorted_insertionSort _ _, ?_, ?_, ?_⟩
  · exact ((List.perm_insertionSort _ _).nodup_iff).mpr (List.nodup_dedup _)
  · intro n hn
    have hn2 : n ∈ (procs.filterMap procName).dedup :=
      (List.perm_insertionSort _ _).mem_iff.mp hn
    have hn3 : n ∈ procs.filterMap procName := List.mem_dedup.mp hn2
    rcases List.mem_filterMap.mp hn3 with ⟨p, _, hp⟩
    cases p with
    | gone => simp [procName] at hp
    | ok o =>
      cases o with
      | none => simp [procName] at hp
      | some m =>
        by_cases h1 : m = ""
        · simp [procName, h1] at hp
        · by_cases h2 : startsWithDot m
          · simp [procName, h1, h2] at hp
          · have hmn : m = n := by simpa [procName, h1, h2] using hp
            rw [← hmn]
            simpa using h2
  · unfold get_running_applications
    rw [filterMap_procName_filter]

/-- Witness for claim C7 at a concrete snapshot. -/
theorem claim_C7_witness :
    startsWithDot "Dock" = false ∧
    (get_running_applications
      [ProcInfo.ok (some "Safari"), ProcInfo.gone, ProcInfo.ok (some ".hidden"),
       ProcInfo.ok none, ProcInfo.ok (some "Safari"), ProcInfo.ok (some "Dock")]).Nodup :=
  ⟨(claim_C7 [ProcInfo.ok (some "Safari"), ProcInfo.gone, ProcInfo.ok (some ".hidden"),
      ProcInfo.ok none, ProcInfo.ok (some "Safari"), ProcInfo.ok (some "Dock")]).2.2.1
      "Dock" (by decide),
   (claim_C7 [ProcInfo.ok (some "Safari"), ProcInfo.gone, ProcInfo.ok (some ".hidden"),
      ProcInfo.ok none, ProcInfo.ok (some "Safari"), ProcInfo.ok (some "Dock")]).2.1⟩

lemma pyInt_of_nonneg {q : ℚ} (h : 0 ≤ q) : pyInt q = ⌊q⌋ := by
  unfold pyInt
  rw [if_pos h]

lemma scale_roundtrip_le_one (f : ℚ) (x : Int) (hf : 1 ≤ f) (hx : 0 ≤ x) :
    |((pyInt ((x : ℚ) * f) : ℚ) / f - (x : ℚ))| ≤ 1 := by
  have hf0 : (0 : ℚ) < f := lt_of_lt_of_le one_pos hf
  have hxq : (0 : ℚ) ≤ (x : ℚ) := by exact_mod_cast hx
  have hq : (0 : ℚ) ≤ (x : ℚ) * f := mul_nonneg hxq (le_of_lt hf0)
  rw [pyInt_of_nonneg hq]
  set q : ℚ := (x : ℚ) * f with hqdef
  have h1 : ((⌊q⌋ : Int) : ℚ) ≤ q := Int.floor_le q
  have h2 : q < ((⌊q⌋ : Int) : ℚ) + 1 := Int.lt_floor_add_one q
  have hx_eq : (x : ℚ) = q / f := by
    rw [hqdef, mul_div_assoc, div_self (ne_of_gt hf0), mul_one]
  have hsub : q / f - ((⌊q⌋ : Int) : ℚ) / f = (q - ((⌊q⌋ : Int) : ℚ)) / f :=
    (sub_div q _ f).symm
  have hself : (q - ((⌊q⌋ : Int) : ℚ)) / f ≤ q - ((⌊q⌋ : Int) : ℚ) :=
    div_le_self (by linarith) hf
  have hfloor_div : ((⌊q⌋ : Int) : ℚ) / f ≤ q / f := (div_le_div_iff_of_pos_right hf0).mpr h1
  rw [abs_le]
  constructor
  · rw [hx_eq]
    linarith
  · rw [hx_eq]
    linarith

/-- Claim C2 counterexample: with physical geometry 100x768 (positive) and
the in-range logical x = 15, scaling then dividing back by the factor lands
1.34 logical pixels away from the original, beyond the claimed one-pixel
tolerance. -/
theorem claim_C2_counterexample :
    0 < (100 : Nat) ∧ 0 < (768 : Nat) ∧ (0 : Int) ≤ 15 ∧
    (15 : Int) ≤ (SCALE_TARGET_WIDTH : Int) ∧
    ¬ (|((scale_coordinates_from_ai ⟨100, 768⟩ 15 0).1 : ℚ) /
          x_scale_factor ⟨100, 768⟩ - (15 : ℚ)| ≤ 1) := by
  refine ⟨by norm_num, by norm_num, by norm_num, by norm_num [SCALE_TARGET_WIDTH], ?_⟩
  have hv : (15 : ℚ) * x_scale_factor ⟨100, 768⟩ = 750 / 683 := by
    norm_num [x_scale_factor, SCALE_TARGET_WIDTH]
  have hsc : (scale_coordinates_from_ai ⟨100, 768⟩ 15 0).1 = 1 := by
    show pyInt ((15 : ℚ) * x_scale_factor ⟨100, 768⟩) = 1
    rw [hv, pyInt_of_nonneg (by norm_num)]
    exact Int.floor_eq_iff.mpr ⟨by norm_num, by norm_num⟩
  rw [hsc]
  intro habs
  rw [abs_le] at habs
  have h1 := habs.1
  rw [x_scale_factor] at h1
  norm_num [SCALE_TARGET_WIDTH] at h1

/-- Claim C2 (amended): when each physical dimension is at least the
corresponding logical dimension (per-axis scale factor at least 1), scaling
a logical point in [0,1366]x[0,768] and dividing back by the same factors
lands within one pixel of the original on both axes.  (The claim fails for
smaller physical geometries: see the counterexample.) -/
theorem claim_C2 (g : Geometry) (x y : Int)
    (hw : SCALE_TARGET_WIDTH ≤ g.width) (hh : SCALE_TARGET_HEIGHT ≤ g.height)
    (hx0 : 0 ≤ x) (hx1 : x ≤ (SCALE_TARGET_WIDTH : Int))
    (hy0 : 0 ≤ y) (hy1 : y ≤ (SCALE_TARGET_HEIGHT : Int)) :
    |((scale_coordinates_from_ai g x y).1 : ℚ) / x_scale_factor g - (x : ℚ)| ≤ 1 ∧
    |((scale_coordinates_from_ai g x y).2 : ℚ) / y_scale_factor g - (y : ℚ)| ≤ 1 := by
  have hwq : (SCALE_TARGET_WIDTH : ℚ) ≤ (g.width : ℚ) := by exact_mod_cast hw
  have hhq : (SCALE_TARGET_HEIGHT : ℚ) ≤ (g.height : ℚ) := by exact_mod_cast hh
  have hfx : (1 : ℚ) ≤ x_scale_factor g := by
    unfold x_scale_factor
    rw [le_div_iff₀ (by norm_num [SCALE_TARGET_WIDTH])]
    simpa using hwq
  have hfy : (1 : ℚ) ≤ y_scale_factor g := by
    unfold y_scale_factor
    rw [le_div_iff₀ (by norm_num [SCALE_TARGET_HEIGHT])]
    simpa using hhq
  exact ⟨scale_roundtrip_le_one _ x hfx hx0, scale_roundtrip_le_one _ y hfy hy0⟩

/-- Witness for claim C2 at a concrete double-density geometry. -/
theorem claim_C2_witness :
    |((scale_coordinates_from_ai ⟨2732, 1536⟩ 5 7).1 : ℚ) /
        x_scale_factor ⟨2732, 1536⟩ - (5 : ℚ)| ≤ 1 ∧
    |((scale_coordinates_from_ai ⟨2732, 1536⟩ 5 7).2 : ℚ) /
        y_scale_factor ⟨2732, 1536⟩ - (7 : ℚ)| ≤ 1 :=
  claim_C2 ⟨2732, 1536⟩ 5 7 (by decide) (by decide) (by decide) (by decide)
    (by decide) (by decide)
